import Mathlib

/-!
Verification of the session-memory subsystem of the Nelson-GPT repository
(`MemoryManager` in the memory module: entry extraction, tag/specialty/age
heuristics, relevance scoring with age decay, session management, and
persistence round-tripping).

Modelling conventions:
* JS strings are Lean `String`s; the character-level operations
  (`toLowerCase`, `includes`, `split`) are embedded as executable functions
  on `List Char`.  `toLowerCase` is modelled as ASCII lowercasing, which
  agrees with JS on all the vocabulary words the heuristics use.
* JS numbers are embedded as `ℚ` (exact arithmetic); timestamps
  (`Date.now()` milliseconds) are `ℕ` parameters threaded explicitly.
* The nondeterministic id generators (`memory_${Date.now()}_${random}`,
  `session_...`) are threaded as explicit string parameters.
* JS `Map`s are association lists in insertion order; `Map.set` replaces
  in place when the key exists, else appends (`setA`).
* `Array.prototype.sort` is stable (ES2019), so the score sort is embedded
  as a stable insertion sort on the descending order.
-/

namespace NelsonMemory

/-! ### Character/string utilities (embedding of the JS string operations) -/

/-- ASCII lowercasing of one character (model of `toLowerCase` per char). -/
def asciiLowerChar (c : Char) : Char :=
  if 'A' ≤ c ∧ c ≤ 'Z' then Char.ofNat (c.toNat + 32) else c

/-- Lowercase a character list. -/
def lowerL (s : List Char) : List Char := s.map asciiLowerChar

/-- Lowercased character list of a string (model of `s.toLowerCase()`). -/
def lowerS (s : String) : List Char := lowerL s.data

/-- Test `leadsWith needle hay`: does `hay` start with `needle`? -/
def leadsWith : List Char → List Char → Bool
  | [], _ => true
  | _ :: _, [] => false
  | n :: ns, h :: hs => n == h && leadsWith ns hs

/-- Test `containsFrom needle hay`: does `hay` contain `needle` as a contiguous
substring?  (Model of JS `hay.includes(needle)`.) -/
def containsFrom (needle : List Char) : List Char → Bool
  | [] => leadsWith needle []
  | c :: cs => leadsWith needle (c :: cs) || containsFrom needle cs

/-- Split a character list at every character satisfying `p`, keeping empty
segments (model of JS `String.prototype.split` with a one-character
separator, and of splitting on a whitespace class). -/
def splitBy (p : Char → Bool) : List Char → List (List Char)
  | [] => [[]]
  | c :: cs =>
    if p c then [] :: splitBy p cs
    else
      match splitBy p cs with
      | [] => [[c]]
      | t :: ts => (c :: t) :: ts

/-- Model of the source's `query.split(' ')`: split on the space character
only. -/
def splitSpace : List Char → List (List Char) := splitBy (fun c => c == ' ')

/-- A whitespace character (space, tab, newline, carriage return). -/
def wsChar (c : Char) : Bool :=
  c == ' ' || c == '\t' || c == '\n' || c == '\r'

/-- Splitting on whitespace characters (the spec's words: "whitespace-split
query terms"). -/
def splitWhitespace : List Char → List (List Char) := splitBy wsChar

/-- Join a list of strings with a separator (model of `Array.join(sep)`). -/
def joinSep (sep : String) : List String → String
  | [] => ""
  | [x] => x
  | x :: y :: xs => x ++ sep ++ joinSep sep (y :: xs)

/-- Keep the first occurrence of each element (model of
`[...new Set(xs)]`). -/
def dedupAux : List String → List String → List String
  | _, [] => []
  | seen, x :: xs =>
    if seen.contains x then dedupAux seen xs else x :: dedupAux (x :: seen) xs

/-- The last `n` elements of a list (model of `Array.slice(-n)`). -/
def lastN (n : ℕ) (l : List α) : List α := l.drop (l.length - n)

/-! ### Association lists modelling JS `Map` (insertion order preserved) -/

/-- Lookup by key (model of `Map.get`). -/
def lookupA (k : String) : List (String × α) → Option α
  | [] => none
  | (k', v) :: rest => if k' = k then some v else lookupA k rest

/-- Insert/replace by key: replaces in place if the key is present, else
appends (model of `Map.set`). -/
def setA (k : String) (v : α) : List (String × α) → List (String × α)
  | [] => [(k, v)]
  | (k', v') :: rest =>
    if k' = k then (k, v) :: rest else (k', v') :: setA k v rest

/-! ### Data model (embedding of the TS interfaces) -/

/-- Message role (`'user' | 'assistant'` as accepted by `addMessage`). -/
inductive Role
  | user
  | assistant
deriving DecidableEq

/-- The `MemoryEntry.category` union type. -/
inductive Category
  | medical_fact
  | case_context
  | user_preference
  | clinical_rule
  | conversation
deriving DecidableEq

/-- The `MemoryEntry.metadata.source` union type. -/
inductive MemorySource
  | nelson
  | conversation
  | user_input
deriving DecidableEq

/-- The record `MemoryEntry.metadata` (all fields optional in TS). -/
structure EntryMetadata where
  patient_age : Option String := none
  medical_specialty : Option String := none
  diagnosis : Option String := none
  treatment : Option String := none
  source : Option MemorySource := none
deriving DecidableEq

/-- The record `MemoryEntry`; the timestamp is `Date` milliseconds as `ℕ`. -/
structure MemoryEntry where
  id : String
  content : String
  category : Category
  importance : ℚ
  timestamp : ℕ
  tags : List String
  metadata : EntryMetadata
deriving DecidableEq

/-- One element of `ConversationMemory.messages`. -/
structure SessionMessage where
  role : Role
  content : String
  timestamp : ℕ
  memories : List String
deriving DecidableEq

/-- The record `ConversationMemory` (a session). -/
structure ConversationMemory where
  sessionId : String
  messages : List SessionMessage
  summary : String
  keyTopics : List String
  startTime : ℕ
  lastActivity : ℕ
deriving DecidableEq

/-- The private state of the `MemoryManager` class: the two `Map`s and the
current-session pointer. -/
structure MemoryManagerState where
  memories : List (String × MemoryEntry)
  conversations : List (String × ConversationMemory)
  currentSessionId : Option String
deriving DecidableEq

/-- The state of a freshly constructed manager (before `loadFromStorage`
restores anything): both maps empty, no current session. -/
def initialState : MemoryManagerState :=
  { memories := [], conversations := [], currentSessionId := none }

/-! ### Tag extraction (`MemoryManager.extractTags`) -/

/-- The specialties vocabulary scanned by `extractTags`. -/
def specialtiesVocab : List String :=
  ["cardiology", "neurology", "oncology", "endocrinology", "gastroenterology",
   "pulmonology", "nephrology", "infectious", "emergency"]

/-- The clinical-terms vocabulary scanned by `extractTags`. -/
def medicalTermsVocab : List String :=
  ["diagnosis", "treatment", "medication", "symptom", "syndrome", "disease",
   "therapy", "surgery", "procedure"]

/-- The age-groups vocabulary scanned by `extractTags`. -/
def ageGroupsVocab : List String :=
  ["newborn", "infant", "toddler", "child", "adolescent", "pediatric"]

/-- Model of `extractTags(content)`: every vocabulary word that occurs in the
lowercased content, pushed in vocabulary order (specialties, then clinical
terms, then age groups). -/
def extractTags (content : String) : List String :=
  (specialtiesVocab.filter fun s => containsFrom s.data (lowerS content)) ++
  (medicalTermsVocab.filter fun s => containsFrom s.data (lowerS content)) ++
  (ageGroupsVocab.filter fun s => containsFrom s.data (lowerS content))

/-! ### Specialty inference (`MemoryManager.inferSpecialty`) -/

/-- Model of `inferSpecialty(content)`: ordered if/else-if substring checks on the
lowercased content; first match wins; `"general pediatrics"` otherwise. -/
def inferSpecialty (content : String) : String :=
  if containsFrom "heart".data (lowerS content) ||
     containsFrom "cardiac".data (lowerS content) then "cardiology"
  else if containsFrom "brain".data (lowerS content) ||
     containsFrom "neuro".data (lowerS content) then "neurology"
  else if containsFrom "cancer".data (lowerS content) ||
     containsFrom "tumor".data (lowerS content) then "oncology"
  else if containsFrom "diabetes".data (lowerS content) ||
     containsFrom "hormone".data (lowerS content) then "endocrinology"
  else if containsFrom "stomach".data (lowerS content) ||
     containsFrom "intestin".data (lowerS content) then "gastroenterology"
  else if containsFrom "lung".data (lowerS content) ||
     containsFrom "respiratory".data (lowerS content) then "pulmonology"
  else if containsFrom "kidney".data (lowerS content) ||
     containsFrom "renal".data (lowerS content) then "nephrology"
  else if containsFrom "infection".data (lowerS content) ||
     containsFrom "bacteria".data (lowerS content) then "infectious disease"
  else if containsFrom "emergency".data (lowerS content) ||
     containsFrom "urgent".data (lowerS content) then "emergency medicine"
  else "general pediatrics"

/-! ### Age extraction (`MemoryManager.extractAge`)

The source matches `/(\d+)\s*(year|month|week|day)s?\s*old/i` (first,
i.e. leftmost, match) and renders `` `${m[1]} ${m[2]}${m[1] !== '1' ? 's' : ''} old` ``;
otherwise it falls back to the first matching term of a fixed list, else
`undefined`.  The regex is embedded as an explicit leftmost-match scanner:
`\d+` is a maximal digit run (backtracking into the run can never succeed
because neither `\s*` nor a unit word can start with a digit), `s?` is
greedy with one backtracking alternative, and `\s` is the whitespace
class. -/

/-- ASCII digit test (regex `\d`). -/
def isDigitCh (c : Char) : Bool := '0' ≤ c && c ≤ '9'

/-- Try to read one of the unit words (lowercase `u`) case-insensitively at
the head of `l`; returns the consumed characters as they appear in the
input together with the rest. -/
def tryWord (u : List Char) (l : List Char) : Option (List Char × List Char) :=
  if lowerL (l.take u.length) = u then some (l.take u.length, l.drop u.length)
  else none

/-- After the unit word: `s?\s*old`, with the greedy-`s?` backtracking. -/
def matchTail (l : List Char) : Bool :=
  (match l with
   | c :: cs =>
     asciiLowerChar c == 's' && leadsWith ['o', 'l', 'd'] (lowerL (cs.dropWhile wsChar))
   | [] => false) ||
  leadsWith ['o', 'l', 'd'] (lowerL ((l.dropWhile wsChar)))

/-- Match the age pattern anchored at the head of `l`; on success returns
the digit run and the unit word as captured (original case). -/
def matchAgeAt (l : List Char) : Option (String × String) :=
  match l.span isDigitCh with
  | (ds, rest) =>
    if ds.isEmpty then none
    else
      let rest := rest.dropWhile wsChar
      match tryWord "year".data rest with
      | some (u, r) => if matchTail r then some (⟨ds⟩, ⟨u⟩) else none
      | none =>
      match tryWord "month".data rest with
      | some (u, r) => if matchTail r then some (⟨ds⟩, ⟨u⟩) else none
      | none =>
      match tryWord "week".data rest with
      | some (u, r) => if matchTail r then some (⟨ds⟩, ⟨u⟩) else none
      | none =>
      match tryWord "day".data rest with
      | some (u, r) => if matchTail r then some (⟨ds⟩, ⟨u⟩) else none
      | none => none

/-- Leftmost match of the age pattern (model of `String.match` without the
global flag). -/
def findAgeMatch : List Char → Option (String × String)
  | [] => none
  | c :: cs =>
    match matchAgeAt (c :: cs) with
    | some r => some r
    | none => findAgeMatch cs

/-- The fallback age-term list of `extractAge`. -/
def ageTermsList : List String :=
  ["newborn", "infant", "toddler", "preschooler", "school-age", "adolescent"]

/-- Model of `extractAge(content)`. -/
def extractAge (content : String) : Option String :=
  match findAgeMatch content.data with
  | some (num, unit) =>
    some (num ++ " " ++ unit ++ (if num ≠ "1" then "s" else "") ++ " old")
  | none =>
    ageTermsList.find? fun t => containsFrom t.data (lowerS content)

/-! ### Entry extraction (`MemoryManager.extractMemoriesFromContent`)

The source checks three independent rules and pushes one entry per firing
rule (also inserting each into the `memories` map; in this embedding the
insertion is performed by `addMessage`, the only caller).  The fresh entry
ids are threaded as the parameters `i1 i2 i3`. -/

/-- The `medical_fact` rule condition. -/
def medicalRuleFires (content : String) (role : Role) : Bool :=
  (role == Role.assistant) &&
    (containsFrom "diagnosis".data (lowerS content) ||
     containsFrom "treatment".data (lowerS content) ||
     containsFrom "medication".data (lowerS content))

/-- The `user_preference` rule condition. -/
def preferenceRuleFires (content : String) (role : Role) : Bool :=
  (role == Role.user) &&
    (containsFrom "prefer".data (lowerS content) ||
     containsFrom "always".data (lowerS content) ||
     containsFrom "never".data (lowerS content))

/-- The `case_context` rule condition (any role). -/
def caseRuleFires (content : String) : Bool :=
  containsFrom "patient".data (lowerS content) ||
  containsFrom "case".data (lowerS content) ||
  containsFrom "year old".data (lowerS content)

/-- The entry pushed by the `medical_fact` rule. -/
def medicalEntry (now : ℕ) (i1 : String) (content : String) : MemoryEntry :=
  { id := i1, content := content, category := Category.medical_fact,
    importance := 4/5, timestamp := now, tags := extractTags content,
    metadata := { source := some MemorySource.conversation,
                  medical_specialty := some (inferSpecialty content) } }

/-- The entry pushed by the `user_preference` rule. -/
def preferenceEntry (now : ℕ) (i2 : String) (content : String) : MemoryEntry :=
  { id := i2, content := content, category := Category.user_preference,
    importance := 9/10, timestamp := now, tags := extractTags content,
    metadata := { source := some MemorySource.user_input } }

/-- The entry pushed by the `case_context` rule. -/
def caseEntry (now : ℕ) (i3 : String) (content : String) : MemoryEntry :=
  { id := i3, content := content, category := Category.case_context,
    importance := 7/10, timestamp := now, tags := extractTags content,
    metadata := { source := some MemorySource.conversation,
                  patient_age := extractAge content } }

/-- Model of `extractMemoriesFromContent(content, role)`: the three rules checked
independently, in source order. -/
def extractMemoriesFromContent (now : ℕ) (i1 i2 i3 : String)
    (content : String) (role : Role) : List MemoryEntry :=
  (if medicalRuleFires content role then [medicalEntry now i1 content] else []) ++
  (if preferenceRuleFires content role then [preferenceEntry now i2 content] else []) ++
  (if caseRuleFires content then [caseEntry now i3 content] else [])

/-! ### Relevance scoring and search (`MemoryManager.searchMemories`) -/

/-- Milliseconds per day, the divisor `1000 * 60 * 60 * 24`. -/
def msPerDay : ℚ := 86400000

/-- Model of `Math.max` on exact rationals, written as an executable conditional
(the lattice `max` of `ℚ` does not evaluate inside the kernel). -/
def ratMax (a b : ℚ) : ℚ := if a ≤ b then b else a

theorem ratMax_eq_max (a b : ℚ) : ratMax a b = max a b := by
  simp [ratMax, max_def]

/-- The age-decay multiplier
`Math.max(0.1, 1 - daysSinceCreated / 30)` with
`daysSinceCreated = (now - timestamp) / 86400000`. -/
def decayFactor (now : ℕ) (timestamp : ℕ) : ℚ :=
  ratMax (1/10) (1 - (((now : ℚ) - (timestamp : ℚ)) / msPerDay) / 30)

/-- The pre-importance, pre-decay lexical score, accumulated exactly as the
source does: a +10 full-phrase bonus as the initial value, then for each
space-split query term of length > 2 a +2 content hit and a +3 tag hit. -/
def rawScore (query : String) (m : MemoryEntry) : ℚ :=
  ((splitSpace (lowerS query)).filter fun t => t.length > 2).foldl
    (fun acc term =>
      acc + (if containsFrom term (lowerS m.content) then 2 else 0)
          + (if m.tags.any fun tag => containsFrom term (lowerS tag) then 3 else 0))
    (if containsFrom (lowerS query) (lowerS m.content) then 10 else 0)

/-- The final score of one entry:
`rawScore * importance * decayFactor`. -/
def entryScore (now : ℕ) (query : String) (m : MemoryEntry) : ℚ :=
  rawScore query m * m.importance * decayFactor now m.timestamp

/-- Stable descending insertion (ties keep the earlier element first),
modelling the stable `Array.prototype.sort((a, b) => b.score - a.score)`. -/
def insertDesc (x : MemoryEntry × ℚ) :
    List (MemoryEntry × ℚ) → List (MemoryEntry × ℚ)
  | [] => [x]
  | y :: ys => if x.2 ≥ y.2 then x :: y :: ys else y :: insertDesc x ys

/-- Stable sort by score, descending. -/
def sortByScoreDesc (l : List (MemoryEntry × ℚ)) : List (MemoryEntry × ℚ) :=
  l.foldr insertDesc []

/-- Model of `searchMemories(query, limit)`: score every stored entry, drop
non-positive scores, sort descending (stable), take `limit`, return the
entries. -/
def searchMemories (now : ℕ) (st : MemoryManagerState) (query : String)
    (limit : ℕ) : List MemoryEntry :=
  ((sortByScoreDesc
      (((st.memories.map Prod.snd).map fun m => (m, entryScore now query m)).filter
        fun p => 0 < p.2)).take limit).map Prod.fst

/-! ### The search procedure as the specification states it

`claimScore`/`claimSearch` follow the words of the specification: the score
is written as a closed arithmetic sum (10·phrase + Σ per-term 2/3 bonuses,
then × importance × decay), parameterised by the term splitter so that the
spec's literal "whitespace-split" reading and the source's
split-on-one-space behaviour can be compared.  (Per the data model, stored
tags are lowercase keyword strings; the tag test lowercases the tag, as
the source does.) -/

/-- Per-entry score as the specification words it. -/
def claimScore (splitter : List Char → List (List Char)) (now : ℕ)
    (query : String) (m : MemoryEntry) : ℚ :=
  ((if containsFrom (lowerS query) (lowerS m.content) then 10 else 0) +
    (((splitter (lowerS query)).filter fun t => t.length > 2).map fun term =>
        (if containsFrom term (lowerS m.content) then (2 : ℚ) else 0)
        + (if m.tags.any fun tag => containsFrom term (lowerS tag) then 3 else 0)).sum)
    * m.importance * decayFactor now m.timestamp

/-- The search pipeline as the specification words it: discard final
scores ≤ 0, sort descending, return at most `limit`. -/
def claimSearch (splitter : List Char → List (List Char)) (now : ℕ)
    (st : MemoryManagerState) (query : String) (limit : ℕ) : List MemoryEntry :=
  ((sortByScoreDesc
      (((st.memories.map Prod.snd).map fun m => (m, claimScore splitter now query m)).filter
        fun p => 0 < p.2)).take limit).map Prod.fst

/-! ### Session management -/

/-- The condition vocabulary of `extractKeyTopicsFromMessages`. -/
def conditionsVocab : List String :=
  ["fever", "cough", "asthma", "diabetes", "seizure", "infection", "rash", "pain"]

/-- Model of `extractKeyTopicsFromMessages(messages)`: join all contents with a
space, lowercase, keep every condition word that occurs, dedup (the
`[...new Set(...)]` of the source). -/
def extractKeyTopicsFromMessages (msgs : List SessionMessage) : List String :=
  dedupAux []
    (conditionsVocab.filter fun c =>
      containsFrom c.data (lowerS (joinSep " " (msgs.map fun m => m.content))))

/-- Model of `updateConversationSummary(conversation)`: the summary is templated
from the key topics of the last 10 messages; `keyTopics` is recomputed
from the entire message history. -/
def updateConversationSummary (conv : ConversationMemory) : ConversationMemory :=
  { conv with
    summary := "Recent discussion about " ++
      joinSep ", " (extractKeyTopicsFromMessages (lastN 10 conv.messages)),
    keyTopics := extractKeyTopicsFromMessages conv.messages }

/-- JS truthiness of the current-session pointer: `null` and the empty
string are falsy (`if (!this.currentSessionId)`). -/
def isFalsyId : Option String → Bool
  | none => true
  | some s => s == ""

/-- Model of `startSession()`: create an empty session with
`startTime = lastActivity = now`, set it current (the fresh id is the
parameter `sid`). -/
def startSession (now : ℕ) (sid : String) (st : MemoryManagerState) :
    MemoryManagerState × String :=
  ({ st with
     currentSessionId := some sid,
     conversations := setA sid
       { sessionId := sid, messages := [], summary := "", keyTopics := [],
         startTime := now, lastActivity := now } st.conversations }, sid)

/-- Model of `addMessage(role, content)`: implicitly start a session when the
pointer is falsy; extract memories; append the message record carrying the
extracted ids; update `lastActivity`; every 10th message triggers the
summary recompute; insert the extracted entries into the memories map;
return the extracted ids. -/
def addMessage (now : ℕ) (freshSid i1 i2 i3 : String) (role : Role)
    (content : String) (st : MemoryManagerState) :
    MemoryManagerState × List String :=
  let st1 := if isFalsyId st.currentSessionId
             then (startSession now freshSid st).1 else st
  match st1.currentSessionId with
  | none => (st1, [])
  | some sid =>
    match lookupA sid st1.conversations with
    | none => (st1, [])
    | some conv =>
      let newMemories := extractMemoriesFromContent now i1 i2 i3 content role
      let memoryIds := newMemories.map fun e => e.id
      let msgs := conv.messages ++
        [{ role := role, content := content, timestamp := now,
           memories := memoryIds }]
      let conv1 : ConversationMemory :=
        { conv with messages := msgs, lastActivity := now }
      let conv2 := if msgs.length % 10 = 0
                   then updateConversationSummary conv1 else conv1
      ({ memories := newMemories.foldl (fun acc e => setA e.id e acc) st1.memories,
         conversations := setA sid conv2 st1.conversations,
         currentSessionId := st1.currentSessionId }, memoryIds)

/-- Model of `getRelevantMemories(query)`: up to 5 search results' contents; when
the current-session pointer is truthy, the session exists and its summary
is truthy (non-empty), the summary is prepended. -/
def getRelevantMemories (now : ℕ) (st : MemoryManagerState) (query : String) :
    List String :=
  let mems := searchMemories now st query 5
  match st.currentSessionId with
  | some sid =>
    if sid = "" then mems.map fun m => m.content
    else
      match lookupA sid st.conversations with
      | some conv =>
        if conv.summary = "" then mems.map fun m => m.content
        else conv.summary :: mems.map fun m => m.content
      | none => mems.map fun m => m.content
  | none => mems.map fun m => m.content

/-! ### Statistics and clearing -/

/-- Bump the per-category counter, creating the key on first use (model of
`categories[c] = (categories[c] || 0) + 1` on a plain object, whose key
order is first-insertion order). -/
def bumpCat (c : Category) : List (Category × ℕ) → List (Category × ℕ)
  | [] => [(c, 1)]
  | (c', n) :: rest =>
    if c' = c then (c', n + 1) :: rest else (c', n) :: bumpCat c rest

/-- The record returned by `getMemoryStats()`. -/
structure MemoryStats where
  totalMemories : ℕ
  totalConversations : ℕ
  categories : List (Category × ℕ)
deriving DecidableEq

/-- Model of `getMemoryStats()`. -/
def getMemoryStats (st : MemoryManagerState) : MemoryStats :=
  { totalMemories := st.memories.length,
    totalConversations := st.conversations.length,
    categories := st.memories.foldl (fun acc p => bumpCat p.2.category acc) [] }

/-- Model of `clearMemories()`. -/
def clearMemories (_st : MemoryManagerState) : MemoryManagerState :=
  initialState

/-! ### Persistence (`saveToStorage` / `loadFromStorage`)

`JSON.stringify` turns every `Date` into its ISO string and
`new Date(string)` parses it back exactly (millisecond precision in both
directions); everything else in the store is JSON-plain data whose array
round trip preserves order.  The embedding keeps the blob structural
(`SerializedState`) with the timestamp fields as strings, rendered by an
executable injective encoder with a verified exact parser — the property
the round-trip claims depend on.  (`new Date` itself never fails: an
unparseable string yields the Invalid Date; see the loading section
below.) -/

/-- The decimal digits of `n`, most significant first (`[]` for 0). -/
def natDigits : ℕ → List ℕ
  | 0 => []
  | n + 1 => natDigits ((n + 1) / 10) ++ [(n + 1) % 10]
decreasing_by exact Nat.div_lt_self (Nat.succ_pos n) (by norm_num)

/-- Recombine decimal digits, most significant first. -/
def fromDigits (l : List ℕ) : ℕ := l.foldl (fun a d => 10 * a + d) 0

/-- Digit (0–9) to its character. -/
def digitToChar (d : ℕ) : Char :=
  ['0', '1', '2', '3', '4', '5', '6', '7', '8', '9'].getD d '0'

/-- Character back to digit value. -/
def charToDigit (c : Char) : ℕ := c.toNat - 48

/-- Render a timestamp as its (decimal) string form. -/
def natToString (n : ℕ) : String :=
  if n = 0 then "0" else ⟨(natDigits n).map digitToChar⟩

/-- Exact parse of a rendered timestamp; `none` on any malformed string. -/
def parseTimestamp (s : String) : Option ℕ :=
  if s.data ≠ [] ∧ s.data.all isDigitCh then
    some (fromDigits (s.data.map charToDigit))
  else none

/-- Serialized `MemoryEntry`: the timestamp as a string, all other fields
JSON-plain. -/
structure SerEntry where
  id : String
  content : String
  category : Category
  importance : ℚ
  timestamp : String
  tags : List String
  metadata : EntryMetadata
deriving DecidableEq

/-- Serialized session message. -/
structure SerMessage where
  role : Role
  content : String
  timestamp : String
  memories : List String
deriving DecidableEq

/-- Serialized `ConversationMemory`. -/
structure SerConversation where
  sessionId : String
  messages : List SerMessage
  summary : String
  keyTopics : List String
  startTime : String
  lastActivity : String
deriving DecidableEq

/-- The persisted blob:
`{memories, conversations, currentSessionId}` as entry lists. -/
structure SerializedState where
  memories : List (String × SerEntry)
  conversations : List (String × SerConversation)
  currentSessionId : Option String
deriving DecidableEq

def serializeEntry (e : MemoryEntry) : SerEntry :=
  { id := e.id, content := e.content, category := e.category,
    importance := e.importance, timestamp := natToString e.timestamp,
    tags := e.tags, metadata := e.metadata }

def serializeMessage (m : SessionMessage) : SerMessage :=
  { role := m.role, content := m.content,
    timestamp := natToString m.timestamp, memories := m.memories }

def serializeConversation (c : ConversationMemory) : SerConversation :=
  { sessionId := c.sessionId, messages := c.messages.map serializeMessage,
    summary := c.summary, keyTopics := c.keyTopics,
    startTime := natToString c.startTime,
    lastActivity := natToString c.lastActivity }

/-- Effectful map over a list in the `Option` monad. -/
def mapOption (f : α → Option β) : List α → Option (List β)
  | [] => some []
  | x :: xs => do
    let y ← f x
    let ys ← mapOption f xs
    some (y :: ys)

/-- The `saveToStorage` serialized payload:
`{memories: [...entries], conversations: [...entries], currentSessionId}`. -/
def serializeState (st : MemoryManagerState) : SerializedState :=
  { memories := st.memories.map fun p => (p.1, serializeEntry p.2),
    conversations := st.conversations.map fun p => (p.1, serializeConversation p.2),
    currentSessionId := st.currentSessionId }

/-! ### Loading (`loadFromStorage`)

After `getItem`, `loadFromStorage` runs, inside one
`try { ... } catch { log }`, the sequence: `JSON.parse(stored)` (may
throw), `this.memories = new Map(data.memories || [])` (may throw on a
non-iterable value), `this.conversations = new Map(data.conversations || [])`
(may throw), `this.currentSessionId = data.currentSessionId`, then two
`forEach` loops replacing every timestamp string by `new Date(string)`.
`new Date` never throws: an unparseable string yields the Invalid Date.
A thrown exception is caught and only logged, so fields assigned before
the throw keep their new values: a throw at `JSON.parse` or at the first
`new Map` leaves the store empty, but a throw at the second `new Map`
leaves the already-assigned memories map in place, with its timestamps
still raw strings (the conversion loops never ran).

The embedding threads each throwing construction as an `Except Unit`
value (`Except.error` = a parsed value `new Map` throws on) and gives the
loaded store a dedicated state type whose timestamp fields hold a valid
date, the Invalid Date, or a raw unconverted string. -/

/-- A timestamp field of a loaded object: a valid `Date`, the Invalid
Date produced by `new Date` on an unparseable string, or the raw string
when a mid-load exception prevented the conversion loop from running. -/
inductive LoadedTime
  | date (ms : ℕ)
  | invalidDate
  | raw (s : String)
deriving DecidableEq

/-- Model of `new Date(s)` on a serialized timestamp string: never fails;
an unparseable string yields the Invalid Date. -/
def jsNewDate (s : String) : LoadedTime :=
  match parseTimestamp s with
  | some n => LoadedTime.date n
  | none => LoadedTime.invalidDate

/-- An entry as it sits in the manager's map after a load. -/
structure LoadedEntry where
  id : String
  content : String
  category : Category
  importance : ℚ
  timestamp : LoadedTime
  tags : List String
  metadata : EntryMetadata
deriving DecidableEq

/-- A session message as it sits in the manager's map after a load. -/
structure LoadedMessage where
  role : Role
  content : String
  timestamp : LoadedTime
  memories : List String
deriving DecidableEq

/-- A session as it sits in the manager's map after a load. -/
structure LoadedConversation where
  sessionId : String
  messages : List LoadedMessage
  summary : String
  keyTopics : List String
  startTime : LoadedTime
  lastActivity : LoadedTime
deriving DecidableEq

/-- The manager's field contents after `loadFromStorage` ran. -/
structure LoadedState where
  memories : List (String × LoadedEntry)
  conversations : List (String × LoadedConversation)
  currentSessionId : Option String
deriving DecidableEq

/-- The freshly constructed fields (nothing assigned by the load). -/
def emptyLoaded : LoadedState :=
  { memories := [], conversations := [], currentSessionId := none }

/-- The result of a successful `JSON.parse` of the stored blob.  Each
field that feeds a `new Map(...)` construction is an `Except Unit`
value: `Except.error` stands for a parsed value `new Map` throws on
(anything but an iterable of key/value pairs). -/
structure ParsedData where
  memories : Except Unit (List (String × SerEntry))
  conversations : Except Unit (List (String × SerConversation))
  currentSessionId : Option String

/-- The parse result of a blob that `saveToStorage` itself wrote:
`JSON.parse(JSON.stringify(data))` succeeds and both fields are entry
arrays. -/
def parseOk (ss : SerializedState) : ParsedData :=
  { memories := Except.ok ss.memories,
    conversations := Except.ok ss.conversations,
    currentSessionId := ss.currentSessionId }

/-- One entry after its timestamp-conversion loop ran. -/
def rehydrateEntry (s : SerEntry) : LoadedEntry :=
  { id := s.id, content := s.content, category := s.category,
    importance := s.importance, timestamp := jsNewDate s.timestamp,
    tags := s.tags, metadata := s.metadata }

/-- One entry as assigned by `new Map(data.memories)` before any
conversion loop ran: the timestamp is still the raw string. -/
def rawLoadedEntry (s : SerEntry) : LoadedEntry :=
  { id := s.id, content := s.content, category := s.category,
    importance := s.importance, timestamp := LoadedTime.raw s.timestamp,
    tags := s.tags, metadata := s.metadata }

/-- One message after its timestamp conversion ran. -/
def rehydrateMessage (s : SerMessage) : LoadedMessage :=
  { role := s.role, content := s.content,
    timestamp := jsNewDate s.timestamp, memories := s.memories }

/-- One session after its timestamp-conversion loop ran. -/
def rehydrateConversation (s : SerConversation) : LoadedConversation :=
  { sessionId := s.sessionId, messages := s.messages.map rehydrateMessage,
    summary := s.summary, keyTopics := s.keyTopics,
    startTime := jsNewDate s.startTime,
    lastActivity := jsNewDate s.lastActivity }

/-- Model of `loadFromStorage()`: the sequential assignments with their
throw points, the catch only logging.  `none` models no stored blob; the
outer `Except.error` models `JSON.parse` throwing. -/
def loadFromStorage (stored : Option (Except Unit ParsedData)) : LoadedState :=
  match stored with
  | none => emptyLoaded
  | some (Except.error _) => emptyLoaded
  | some (Except.ok data) =>
    match data.memories with
    | Except.error _ => emptyLoaded
    | Except.ok mems =>
      match data.conversations with
      | Except.error _ =>
        { memories := mems.map fun p => (p.1, rawLoadedEntry p.2),
          conversations := [], currentSessionId := none }
      | Except.ok convs =>
        { memories := mems.map fun p => (p.1, rehydrateEntry p.2),
          conversations := convs.map fun p => (p.1, rehydrateConversation p.2),
          currentSessionId := data.currentSessionId }

/-! ### Correspondence between loaded states and manager states -/

/-- A manager state viewed as a loaded state (every timestamp a valid
date). -/
def loadedOfEntry (e : MemoryEntry) : LoadedEntry :=
  { id := e.id, content := e.content, category := e.category,
    importance := e.importance, timestamp := LoadedTime.date e.timestamp,
    tags := e.tags, metadata := e.metadata }

def loadedOfMessage (m : SessionMessage) : LoadedMessage :=
  { role := m.role, content := m.content,
    timestamp := LoadedTime.date m.timestamp, memories := m.memories }

def loadedOfConversation (c : ConversationMemory) : LoadedConversation :=
  { sessionId := c.sessionId, messages := c.messages.map loadedOfMessage,
    summary := c.summary, keyTopics := c.keyTopics,
    startTime := LoadedTime.date c.startTime,
    lastActivity := LoadedTime.date c.lastActivity }

def toLoadedState (st : MemoryManagerState) : LoadedState :=
  { memories := st.memories.map fun p => (p.1, loadedOfEntry p.2),
    conversations := st.conversations.map fun p => (p.1, loadedOfConversation p.2),
    currentSessionId := st.currentSessionId }

/-- A valid date back to its milliseconds; fails on the Invalid Date and
on raw strings. -/
def natOfTime : LoadedTime → Option ℕ
  | LoadedTime.date n => some n
  | LoadedTime.invalidDate => none
  | LoadedTime.raw _ => none

def stateOfLoadedEntry (e : LoadedEntry) : Option MemoryEntry :=
  (natOfTime e.timestamp).map fun t =>
    { id := e.id, content := e.content, category := e.category,
      importance := e.importance, timestamp := t,
      tags := e.tags, metadata := e.metadata }

def stateOfLoadedMessage (m : LoadedMessage) : Option SessionMessage :=
  (natOfTime m.timestamp).map fun t =>
    { role := m.role, content := m.content, timestamp := t,
      memories := m.memories }

def stateOfLoadedConversation (c : LoadedConversation) :
    Option ConversationMemory := do
  let msgs ← mapOption stateOfLoadedMessage c.messages
  let st ← natOfTime c.startTime
  let la ← natOfTime c.lastActivity
  some { sessionId := c.sessionId, messages := msgs, summary := c.summary,
         keyTopics := c.keyTopics, startTime := st, lastActivity := la }

/-- Recover a typed manager state from a loaded state all of whose
timestamps are valid dates (the situation after a clean reload). -/
def loadedToState (ls : LoadedState) : Option MemoryManagerState := do
  let mems ← mapOption (fun p => (stateOfLoadedEntry p.2).map fun e => (p.1, e))
    ls.memories
  let convs ← mapOption
    (fun p => (stateOfLoadedConversation p.2).map fun c => (p.1, c))
    ls.conversations
  some { memories := mems, conversations := convs,
         currentSessionId := ls.currentSessionId }

/-- Model of `getMemoryStats()` read off the loaded field contents (the
same source function: map sizes and a per-category count; it never
touches a timestamp). -/
def getMemoryStatsLoaded (ls : LoadedState) : MemoryStats :=
  { totalMemories := ls.memories.length,
    totalConversations := ls.conversations.length,
    categories := ls.memories.foldl (fun acc p => bumpCat p.2.category acc) [] }

/-! ### The storage error boundary

The manager wraps every storage touch in `try { ... } catch { log }`.  The
outcome of the underlying storage call is threaded as an explicit
`Except`-value parameter, and each boundary operation is shown to be
`Except.ok` for every outcome — no storage failure escapes a manager
call. -/

/-- Model of `saveToStorage()`: a failing write (`Except.error`) is caught and
swallowed. -/
def saveToStorageChecked (writeOutcome : Except String Unit) :
    Except String Unit :=
  match writeOutcome with
  | Except.ok u => Except.ok u
  | Except.error _ => Except.ok ()

/-- Model of `loadFromStorage()` at the error boundary: a `getItem` call
that itself throws is caught before any assignment, leaving the empty
state; otherwise the sequential load runs (whose own throw points are
inside the same catch). -/
def loadFromStorageChecked
    (readOutcome : Except String (Option (Except Unit ParsedData))) :
    Except String LoadedState :=
  match readOutcome with
  | Except.error _ => Except.ok emptyLoaded
  | Except.ok stored => Except.ok (loadFromStorage stored)

/-- Model of `addMessage` with its trailing persistence step at the error
boundary. -/
def addMessageChecked (writeOutcome : Except String Unit) (now : ℕ)
    (freshSid i1 i2 i3 : String) (role : Role) (content : String)
    (st : MemoryManagerState) :
    Except String (MemoryManagerState × List String) := do
  let r := addMessage now freshSid i1 i2 i3 role content st
  let _ ← saveToStorageChecked writeOutcome
  return r

/-- Model of `startSession` with its trailing persistence step at the error
boundary. -/
def startSessionChecked (writeOutcome : Except String Unit) (now : ℕ)
    (sid : String) (st : MemoryManagerState) :
    Except String (MemoryManagerState × String) := do
  let r := startSession now sid st
  let _ ← saveToStorageChecked writeOutcome
  return r

/-- Model of `clearMemories` with its trailing persistence step at the error
boundary. -/
def clearMemoriesChecked (writeOutcome : Except String Unit)
    (st : MemoryManagerState) : Except String MemoryManagerState := do
  let r := clearMemories st
  let _ ← saveToStorageChecked writeOutcome
  return r

/-! ### Helper lemmas -/

/-- The source's per-term `+=` accumulation equals the closed sum. -/
theorem foldl_add_pair (f g : List Char → ℚ) (l : List (List Char)) :
    ∀ init : ℚ,
      l.foldl (fun acc t => acc + f t + g t) init =
        init + (l.map fun t => f t + g t).sum := by
  induction l with
  | nil => intro init; simp
  | cons h t ih => intro init; simp only [List.foldl_cons, List.map_cons,
      List.sum_cons, ih]; ring

/-- The accumulated score equals the claim's closed formula for the same
splitter. -/
theorem entryScore_eq_claimScore (now : ℕ) (query : String) (m : MemoryEntry) :
    entryScore now query m = claimScore splitSpace now query m := by
  unfold entryScore claimScore rawScore
  rw [foldl_add_pair]

/-- The lexical score is a sum of non-negative bonuses. -/
theorem rawScore_nonneg (query : String) (m : MemoryEntry) :
    0 ≤ rawScore query m := by
  unfold rawScore
  rw [foldl_add_pair]
  apply add_nonneg
  · split <;> norm_num
  · apply List.sum_nonneg
    intro x hx
    simp only [List.mem_map] at hx
    obtain ⟨t, _, rfl⟩ := hx
    apply add_nonneg <;> (split <;> norm_num)

/-- The lexical score depends only on the entry's content and tags. -/
theorem rawScore_congr (query : String) (m1 m2 : MemoryEntry)
    (hc : m1.content = m2.content) (ht : m1.tags = m2.tags) :
    rawScore query m1 = rawScore query m2 := by
  unfold rawScore
  rw [hc, ht]

@[simp]
theorem lookupA_setA_self (k : String) (v : α) (l : List (String × α)) :
    lookupA k (setA k v l) = some v := by
  induction l with
  | nil => simp [setA, lookupA]
  | cons p rest ih =>
    by_cases h : p.1 = k
    · simp [setA, h, lookupA]
    · simpa [setA, h, lookupA] using ih

/-- Membership in a conditional singleton. -/
theorem mem_ite_singleton {P : Prop} [Decidable P] {e x : α}
    (h : e ∈ if P then [x] else []) : e = x := by
  split at h
  · simpa using h
  · simp at h

/-- The summary recompute touches only `summary` and `keyTopics`. -/
theorem updateConversationSummary_messages (c : ConversationMemory) :
    (updateConversationSummary c).messages = c.messages := rfl

theorem updateConversationSummary_lastActivity (c : ConversationMemory) :
    (updateConversationSummary c).lastActivity = c.lastActivity := rfl

/-! ## Claims -/

/-- C8: Specialty inference applies its substring rules in the listed
order with first match winning (heart/cardiac→cardiology, brain/neuro→
neurology, cancer/tumor→oncology, diabetes/hormone→endocrinology,
stomach/intestin→gastroenterology, lung/respiratory→pulmonology,
kidney/renal→nephrology, infection/bacteria→infectious disease,
emergency/urgent→emergency medicine, else general pediatrics); in
particular, any content containing both "heart" and "brain" yields
cardiology. -/
theorem c8_theorem (content : String) :
    ((containsFrom "heart".data (lowerS content) ||
      containsFrom "cardiac".data (lowerS content)) = true →
      inferSpecialty content = "cardiology") ∧
    ((containsFrom "heart".data (lowerS content) ||
      containsFrom "cardiac".data (lowerS content)) = false →
     (containsFrom "brain".data (lowerS content) ||
      containsFrom "neuro".data (lowerS content)) = true →
      inferSpecialty content = "neurology") ∧
    ((containsFrom "heart".data (lowerS content) ||
      containsFrom "cardiac".data (lowerS content)) = false →
     (containsFrom "brain".data (lowerS content) ||
      containsFrom "neuro".data (lowerS content)) = false →
     (containsFrom "cancer".data (lowerS content) ||
      containsFrom "tumor".data (lowerS content)) = true →
      inferSpecialty content = "oncology") ∧
    ((containsFrom "heart".data (lowerS content) ||
      containsFrom "cardiac".data (lowerS content)) = false →
     (containsFrom "brain".data (lowerS content) ||
      containsFrom "neuro".data (lowerS content)) = false →
     (containsFrom "cancer".data (lowerS content) ||
      containsFrom "tumor".data (lowerS content)) = false →
     (containsFrom "diabetes".data (lowerS content) ||
      containsFrom "hormone".data (lowerS content)) = true →
      inferSpecialty content = "endocrinology") ∧
    ((containsFrom "heart".data (lowerS content) ||
      containsFrom "cardiac".data (lowerS content)) = false →
     (containsFrom "brain".data (lowerS content) ||
      containsFrom "neuro".data (lowerS content)) = false →
     (containsFrom "cancer".data (lowerS content) ||
      containsFrom "tumor".data (lowerS content)) = false →
     (containsFrom "diabetes".data (lowerS content) ||
      containsFrom "hormone".data (lowerS content)) = false →
     (containsFrom "stomach".data (lowerS content) ||
      containsFrom "intestin".data (lowerS content)) = true →
      inferSpecialty content = "gastroenterology") ∧
    ((containsFrom "heart".data (lowerS content) ||
      containsFrom "cardiac".data (lowerS content)) = false →
     (containsFrom "brain".data (lowerS content) ||
      containsFrom "neuro".data (lowerS content)) = false →
     (containsFrom "cancer".data (lowerS content) ||
      containsFrom "tumor".data (lowerS content)) = false →
     (containsFrom "diabetes".data (lowerS content) ||
      containsFrom "hormone".data (lowerS content)) = false →
     (containsFrom "stomach".data (lowerS content) ||
      containsFrom "intestin".data (lowerS content)) = false →
     (containsFrom "lung".data (lowerS content) ||
      containsFrom "respiratory".data (lowerS content)) = true →
      inferSpecialty content = "pulmonology") ∧
    ((containsFrom "heart".data (lowerS content) ||
      containsFrom "cardiac".data (lowerS content)) = false →
     (containsFrom "brain".data (lowerS content) ||
      containsFrom "neuro".data (lowerS content)) = false →
     (containsFrom "cancer".data (lowerS content) ||
      containsFrom "tumor".data (lowerS content)) = false →
     (containsFrom "diabetes".data (lowerS content) ||
      containsFrom "hormone".data (lowerS content)) = false →
     (containsFrom "stomach".data (lowerS content) ||
      containsFrom "intestin".data (lowerS content)) = false →
     (containsFrom "lung".data (lowerS content) ||
      containsFrom "respiratory".data (lowerS content)) = false →
     (containsFrom "kidney".data (lowerS content) ||
      containsFrom "renal".data (lowerS content)) = true →
      inferSpecialty content = "nephrology") ∧
    ((containsFrom "heart".data (lowerS content) ||
      containsFrom "cardiac".data (lowerS content)) = false →
     (containsFrom "brain".data (lowerS content) ||
      containsFrom "neuro".data (lowerS content)) = false →
     (containsFrom "cancer".data (lowerS content) ||
      containsFrom "tumor".data (lowerS content)) = false →
     (containsFrom "diabetes".data (lowerS content) ||
      containsFrom "hormone".data (lowerS content)) = false →
     (containsFrom "stomach".data (lowerS content) ||
      containsFrom "intestin".data (lowerS content)) = false →
     (containsFrom "lung".data (lowerS content) ||
      containsFrom "respiratory".data (lowerS content)) = false →
     (containsFrom "kidney".data (lowerS content) ||
      containsFrom "renal".data (lowerS content)) = false →
     (containsFrom "infection".data (lowerS content) ||
      containsFrom "bacteria".data (lowerS content)) = true →
      inferSpecialty content = "infectious disease") ∧
    ((containsFrom "heart".data (lowerS content) ||
      containsFrom "cardiac".data (lowerS content)) = false →
     (containsFrom "brain".data (lowerS content) ||
      containsFrom "neuro".data (lowerS content)) = false →
     (containsFrom "cancer".data (lowerS content) ||
      containsFrom "tumor".data (lowerS content)) = false →
     (containsFrom "diabetes".data (lowerS content) ||
      containsFrom "hormone".data (lowerS content)) = false →
     (containsFrom "stomach".data (lowerS content) ||
      containsFrom "intestin".data (lowerS content)) = false →
     (containsFrom "lung".data (lowerS content) ||
      containsFrom "respiratory".data (lowerS content)) = false →
     (containsFrom "kidney".data (lowerS content) ||
      containsFrom "renal".data (lowerS content)) = false →
     (containsFrom "infection".data (lowerS content) ||
      containsFrom "bacteria".data (lowerS content)) = false →
     (containsFrom "emergency".data (lowerS content) ||
      containsFrom "urgent".data (lowerS content)) = true →
      inferSpecialty content = "emergency medicine") ∧
    ((containsFrom "heart".data (lowerS content) ||
      containsFrom "cardiac".data (lowerS content)) = false →
     (containsFrom "brain".data (lowerS content) ||
      containsFrom "neuro".data (lowerS content)) = false →
     (containsFrom "cancer".data (lowerS content) ||
      containsFrom "tumor".data (lowerS content)) = false →
     (containsFrom "diabetes".data (lowerS content) ||
      containsFrom "hormone".data (lowerS content)) = false →
     (containsFrom "stomach".data (lowerS content) ||
      containsFrom "intestin".data (lowerS content)) = false →
     (containsFrom "lung".data (lowerS content) ||
      containsFrom "respiratory".data (lowerS content)) = false →
     (containsFrom "kidney".data (lowerS content) ||
      containsFrom "renal".data (lowerS content)) = false →
     (containsFrom "infection".data (lowerS content) ||
      containsFrom "bacteria".data (lowerS content)) = false →
     (containsFrom "emergency".data (lowerS content) ||
      containsFrom "urgent".data (lowerS content)) = false →
      inferSpecialty content = "general pediatrics") ∧
    (containsFrom "heart".data (lowerS content) = true →
     containsFrom "brain".data (lowerS content) = true →
      inferSpecialty content = "cardiology") := by
  refine ⟨?_, ?_, ?_, ?_, ?_, ?_, ?_, ?_, ?_, ?_, ?_⟩
  · intro h1; simp [inferSpecialty, h1]
  · intro h1 h2; simp [inferSpecialty, h1, h2]
  · intro h1 h2 h3; simp [inferSpecialty, h1, h2, h3]
  · intro h1 h2 h3 h4; simp [inferSpecialty, h1, h2, h3, h4]
  · intro h1 h2 h3 h4 h5; simp [inferSpecialty, h1, h2, h3, h4, h5]
  · intro h1 h2 h3 h4 h5 h6; simp [inferSpecialty, h1, h2, h3, h4, h5, h6]
  · intro h1 h2 h3 h4 h5 h6 h7; simp [inferSpecialty, h1, h2, h3, h4, h5, h6, h7]
  · intro h1 h2 h3 h4 h5 h6 h7 h8
    simp [inferSpecialty, h1, h2, h3, h4, h5, h6, h7, h8]
  · intro h1 h2 h3 h4 h5 h6 h7 h8 h9
    simp [inferSpecialty, h1, h2, h3, h4, h5, h6, h7, h8, h9]
  · intro h1 h2 h3 h4 h5 h6 h7 h8 h9
    simp [inferSpecialty, h1, h2, h3, h4, h5, h6, h7, h8, h9]
  · intro hh hb; simp [inferSpecialty, hh]

/-- C8 witness: the precedence instance of the claim at a concrete
content containing both "heart" and "brain". -/
theorem c8_witness :
    inferSpecialty "heart surgery after a brain scan" = "cardiology" := by
  have h := c8_theorem "heart surgery after a brain scan"
  exact h.2.2.2.2.2.2.2.2.2.2 (by decide) (by decide)

/-- C9: Age extraction matches "<number> (year|month|week|day)s? old"
case-insensitively and returns the normalized phrase with correct
pluralization ("5 year old…" ↦ "5 years old", "2 month old…" ↦
"2 months old", the number "1" stays singular); when no such pattern
matches it falls back to a substring match against {newborn, infant,
toddler, preschooler, school-age, adolescent}, and otherwise returns
undefined (`none`). -/
theorem c9_theorem :
    extractAge "This is a 5 year old with fever" = some "5 years old" ∧
    extractAge "2 month old infant" = some "2 months old" ∧
    extractAge "1 year old" = some "1 year old" ∧
    ∀ content : String, findAgeMatch content.data = none →
      ((∀ t ∈ ageTermsList, containsFrom t.data (lowerS content) = false) →
        extractAge content = none) ∧
      (∀ t, extractAge content = some t →
        t ∈ ageTermsList ∧ containsFrom t.data (lowerS content) = true) := by
  refine ⟨by decide, by decide, by decide, ?_⟩
  intro content h
  constructor
  · intro hall
    simp only [extractAge, h]
    rw [List.find?_eq_none]
    intro t ht
    simp [hall t ht]
  · intro t hsome
    simp only [extractAge, h] at hsome
    have h1 := List.mem_of_find?_eq_some hsome
    have h2 := List.find?_some hsome
    exact ⟨h1, h2⟩

/-- C9 witness: the fallback clause of the claim at a concrete content
with no age pattern and no fallback term. -/
theorem c9_witness : extractAge "routine checkup" = none :=
  (c9_theorem.2.2.2 "routine checkup" (by decide)).1 (by decide)

/-- C1 (amended): `searchMemories(query, limit)` behaves exactly as the
claimed scoring pipeline — +10 full-phrase bonus, per-term +2 content and
+3 tag bonuses for terms of length > 2, multiplied by importance and the
age-decay factor, non-positive final scores discarded, stable descending
sort, at most `limit` results — with the query terms split on the space
character (`query.split(' ')`), not on general whitespace. -/
theorem c1_theorem (now : ℕ) (st : MemoryManagerState) (query : String)
    (limit : ℕ) :
    searchMemories now st query limit = claimSearch splitSpace now st query limit := by
  simp only [searchMemories, claimSearch, entryScore_eq_claimScore]

/-- The store and entry exhibiting the whitespace/space split divergence:
one fresh entry whose content contains the first whitespace-separated term
of the query. -/
def divergenceEntry : MemoryEntry :=
  { id := "m1", content := "aaa xyz", category := Category.conversation,
    importance := 1, timestamp := 0, tags := [], metadata := {} }

def divergenceState : MemoryManagerState :=
  { memories := [("m1", divergenceEntry)], conversations := [],
    currentSessionId := none }

/-- C1 counterexample: for the query `"aaa\tbbb"` (terms separated by a
tab) the claimed whitespace-split scoring returns the entry (term "aaa"
scores +2), but the code returns nothing, because `split(' ')` leaves the
single term `"aaa\tbbb"`, which the content does not contain. -/
theorem c1_counterexample :
    searchMemories 0 divergenceState "aaa\tbbb" 10 = [] ∧
    claimSearch splitWhitespace 0 divergenceState "aaa\tbbb" 10 = [divergenceEntry] ∧
    searchMemories 0 divergenceState "aaa\tbbb" 10 ≠
      claimSearch splitWhitespace 0 divergenceState "aaa\tbbb" 10 := by
  have hterms : ((splitSpace (lowerS "aaa\tbbb")).filter fun t => t.length > 2) =
      [['a', 'a', 'a', '\t', 'b', 'b', 'b']] := by decide
  have hwterms : ((splitWhitespace (lowerS "aaa\tbbb")).filter fun t => t.length > 2) =
      [['a', 'a', 'a'], ['b', 'b', 'b']] := by decide
  have hdecay : decayFactor 0 0 = 1 := by
    unfold decayFactor msPerDay ratMax
    norm_num
  have hraw : rawScore "aaa\tbbb" divergenceEntry = 0 := by
    unfold rawScore
    rw [hterms]
    norm_num [List.foldl_cons, List.foldl_nil,
      (by decide : containsFrom (lowerS "aaa\tbbb") (lowerS divergenceEntry.content) = false),
      (by decide : containsFrom ['a', 'a', 'a', '\t', 'b', 'b', 'b']
        (lowerS divergenceEntry.content) = false),
      (show divergenceEntry.tags = [] from rfl), List.any_nil]
  have hescore : entryScore 0 "aaa\tbbb" divergenceEntry = 0 := by
    unfold entryScore
    rw [hraw]
    ring
  have hcscore : claimScore splitWhitespace 0 "aaa\tbbb" divergenceEntry = 2 := by
    unfold claimScore
    rw [hwterms]
    rw [show divergenceEntry.timestamp = 0 from rfl, hdecay,
      show divergenceEntry.importance = 1 from rfl]
    norm_num [List.map_cons, List.map_nil, List.sum_cons, List.sum_nil,
      (by decide : containsFrom (lowerS "aaa\tbbb") (lowerS divergenceEntry.content) = false),
      (by decide : containsFrom ['a', 'a', 'a'] (lowerS divergenceEntry.content) = true),
      (by decide : containsFrom ['b', 'b', 'b'] (lowerS divergenceEntry.content) = false),
      (show divergenceEntry.tags = [] from rfl), List.any_nil]
  have hsearch : searchMemories 0 divergenceState "aaa\tbbb" 10 = [] := by
    unfold searchMemories
    rw [show divergenceState.memories = [("m1", divergenceEntry)] from rfl]
    simp [hescore, sortByScoreDesc]
  have hclaim : claimSearch splitWhitespace 0 divergenceState "aaa\tbbb" 10 =
      [divergenceEntry] := by
    unfold claimSearch
    rw [show divergenceState.memories = [("m1", divergenceEntry)] from rfl]
    simp [hcscore, sortByScoreDesc, insertDesc]
  refine ⟨hsearch, hclaim, ?_⟩
  rw [hsearch, hclaim]
  simp

/-- C2: extraction emits exactly the entries dictated by the three
independently checked rules — `medical_fact` (assistant role, importance
0.8, source `conversation`, specialty inferred), `user_preference` (user
role, importance 0.9, source `user_input`), `case_context` (any role,
importance 0.7, source `conversation`, age extracted) — one entry per
triggered rule, each carrying the content verbatim and the extracted
tags. -/
theorem c2_theorem (now : ℕ) (i1 i2 i3 : String) (content : String)
    (role : Role) :
    extractMemoriesFromContent now i1 i2 i3 content role =
      (if medicalRuleFires content role = true then
        [{ id := i1, content := content, category := Category.medical_fact,
           importance := 4/5, timestamp := now, tags := extractTags content,
           metadata := { patient_age := none,
                         medical_specialty := some (inferSpecialty content),
                         diagnosis := none, treatment := none,
                         source := some MemorySource.conversation } }] else []) ++
      (if preferenceRuleFires content role = true then
        [{ id := i2, content := content, category := Category.user_preference,
           importance := 9/10, timestamp := now, tags := extractTags content,
           metadata := { patient_age := none, medical_specialty := none,
                         diagnosis := none, treatment := none,
                         source := some MemorySource.user_input } }] else []) ++
      (if caseRuleFires content = true then
        [{ id := i3, content := content, category := Category.case_context,
           importance := 7/10, timestamp := now, tags := extractTags content,
           metadata := { patient_age := extractAge content,
                         medical_specialty := none,
                         diagnosis := none, treatment := none,
                         source := some MemorySource.conversation } }] else []) ∧
    ∀ e ∈ extractMemoriesFromContent now i1 i2 i3 content role,
      e.content = content ∧ e.tags = extractTags content ∧ e.timestamp = now := by
  constructor
  · rfl
  · intro e he
    unfold extractMemoriesFromContent at he
    rcases List.mem_append.mp he with hAB | hC
    · rcases List.mem_append.mp hAB with hA | hB
      · rw [mem_ite_singleton hA]; exact ⟨rfl, rfl, rfl⟩
      · rw [mem_ite_singleton hB]; exact ⟨rfl, rfl, rfl⟩
    · rw [mem_ite_singleton hC]; exact ⟨rfl, rfl, rfl⟩

/-- C2 witness: a user message that triggers both the preference and the
case rules emits one entry per rule, each with the content verbatim. -/
theorem c2_witness :
    (preferenceEntry 5 "idB" "I prefer oral medication for this patient").content =
      "I prefer oral medication for this patient" ∧
    (preferenceEntry 5 "idB" "I prefer oral medication for this patient").tags =
      extractTags "I prefer oral medication for this patient" ∧
    (preferenceEntry 5 "idB" "I prefer oral medication for this patient").timestamp = 5 :=
  (c2_theorem 5 "idA" "idB" "idC" "I prefer oral medication for this patient"
    Role.user).2 _ (by
      unfold extractMemoriesFromContent
      rw [if_neg (by decide), if_pos (by decide), if_pos (by decide)]
      exact List.mem_append_left _ (List.mem_append_right _ (List.Mem.head _)))

/-- C3: the recency multiplier applied to every candidate is
`max(0.1, 1 − ageDays/30)`; an entry 1 day old scores at least as high as
an otherwise identical entry 40 days old for every query; and decay alone
never reduces a positive pre-decay score below 0.1 times that score, in
particular never to zero.  (Importance is non-negative per the data
model's `[0,1]` range.) -/
theorem c3_theorem (now : ℕ) (query : String) (e1 e2 : MemoryEntry)
    (himp : 0 ≤ e1.importance)
    (hc : e1.content = e2.content) (ht : e1.tags = e2.tags)
    (hi : e1.importance = e2.importance)
    (h1 : e1.timestamp + 86400000 = now)
    (h2 : e2.timestamp + 40 * 86400000 = now) :
    (∀ m : MemoryEntry, entryScore now query m =
      rawScore query m * m.importance *
        max (1/10) (1 - (((now : ℚ) - (m.timestamp : ℚ)) / 86400000) / 30)) ∧
    entryScore now query e2 ≤ entryScore now query e1 ∧
    (∀ m : MemoryEntry, 0 < rawScore query m * m.importance →
      (1/10) * (rawScore query m * m.importance) ≤ entryScore now query m ∧
      entryScore now query m ≠ 0) := by
  have hdm : ∀ m : MemoryEntry, 1/10 ≤ decayFactor now m.timestamp := by
    intro m
    unfold decayFactor ratMax
    split
    · assumption
    · exact le_refl _
  have hd1 : decayFactor now e1.timestamp = 29/30 := by
    have hcast : ((now : ℚ) - (e1.timestamp : ℚ)) = 86400000 := by
      have hq := congrArg (fun k : ℕ => (k : ℚ)) h1
      push_cast at hq
      linarith
    unfold decayFactor msPerDay ratMax
    rw [hcast]
    norm_num
  have hd2 : decayFactor now e2.timestamp = 1/10 := by
    have hcast : ((now : ℚ) - (e2.timestamp : ℚ)) = 40 * 86400000 := by
      have hq := congrArg (fun k : ℕ => (k : ℚ)) h2
      push_cast at hq
      linarith
    unfold decayFactor msPerDay ratMax
    rw [hcast]
    norm_num
  refine ⟨?_, ?_, ?_⟩
  · intro m
    unfold entryScore decayFactor msPerDay
    rw [ratMax_eq_max]
  · have hbase : rawScore query e2 * e2.importance =
        rawScore query e1 * e1.importance := by
      rw [rawScore_congr query e1 e2 hc ht, hi]
    have hbnn : 0 ≤ rawScore query e1 * e1.importance :=
      mul_nonneg (rawScore_nonneg _ _) himp
    unfold entryScore
    rw [hd1, hd2, hbase]
    exact mul_le_mul_of_nonneg_left (by norm_num) hbnn
  · intro m hm
    have hdpos : 0 < decayFactor now m.timestamp :=
      lt_of_lt_of_le (by norm_num) (hdm m)
    constructor
    · have hle := mul_le_mul_of_nonneg_left (hdm m) (le_of_lt hm)
      unfold entryScore
      rw [mul_comm (1/10 : ℚ) (rawScore query m * m.importance)]
      exact hle
    · exact ne_of_gt (mul_pos hm hdpos)

/-- The two entries of the C3 witness: identical except for their ages
(1 day and 40 days at `now = 40` days). -/
def freshEntryC3 : MemoryEntry :=
  { id := "f", content := "check", category := Category.conversation,
    importance := 1, timestamp := 39 * 86400000, tags := [], metadata := {} }

def oldEntryC3 : MemoryEntry :=
  { id := "o", content := "check", category := Category.conversation,
    importance := 1, timestamp := 0, tags := [], metadata := {} }

/-- C3 witness: the fresher of two otherwise identical entries scores at
least as high. -/
theorem c3_witness :
    entryScore (40 * 86400000) "check" oldEntryC3 ≤
      entryScore (40 * 86400000) "check" freshEntryC3 :=
  (c3_theorem (40 * 86400000) "check" freshEntryC3 oldEntryC3
    (by simp [freshEntryC3]) rfl rfl rfl (by decide) (by decide)).2.1

/-- C7: `getRelevantMemories(query)` returns the contents of at most 5
entries ranked by `searchMemories`; when a current session exists (truthy
pointer, session present) with a non-empty summary, that summary is
prepended as the first element, the rest staying the same ranked
contents. -/
theorem c7_theorem (now : ℕ) (st : MemoryManagerState) (query : String) :
    (searchMemories now st query 5).length ≤ 5 ∧
    (st.currentSessionId = none →
      getRelevantMemories now st query =
        (searchMemories now st query 5).map fun m => m.content) ∧
    (∀ sid conv, st.currentSessionId = some sid → sid ≠ "" →
      lookupA sid st.conversations = some conv → conv.summary ≠ "" →
      getRelevantMemories now st query =
        conv.summary :: (searchMemories now st query 5).map fun m => m.content) ∧
    (∀ sid conv, st.currentSessionId = some sid → sid ≠ "" →
      lookupA sid st.conversations = some conv → conv.summary = "" →
      getRelevantMemories now st query =
        (searchMemories now st query 5).map fun m => m.content) := by
  refine ⟨?_, ?_, ?_, ?_⟩
  · unfold searchMemories
    rw [List.length_map, List.length_take]
    exact min_le_left _ _
  · intro h
    unfold getRelevantMemories
    rw [h]
  · intro sid conv hs hne hl hsum
    unfold getRelevantMemories
    rw [hs]
    simp only [if_neg hne, hl, if_neg hsum]
  · intro sid conv hs hne hl hsum
    unfold getRelevantMemories
    rw [hs]
    simp only [if_neg hne, hl, if_pos hsum]

/-- The state of the C7 witness: one session with a non-empty summary and
an empty memory store. -/
def summaryStateC7 : MemoryManagerState :=
  { memories := [],
    conversations := [("s",
      { sessionId := "s", messages := [], summary := "recap",
        keyTopics := [], startTime := 0, lastActivity := 0 })],
    currentSessionId := some "s" }

/-- C7 witness: with an empty store and a session summary "recap", the
result is exactly the prepended summary. -/
theorem c7_witness : getRelevantMemories 0 summaryStateC7 "q" = ["recap"] :=
  ((c7_theorem 0 summaryStateC7 "q").2.2.1 "s"
    { sessionId := "s", messages := [], summary := "recap",
      keyTopics := [], startTime := 0, lastActivity := 0 }
    rfl (by decide) rfl (by decide)).trans rfl

/-- The message record `addMessage` appends: the content verbatim, the
timestamp, and the ids of the entries extracted from that content. -/
def newMessage (now : ℕ) (i1 i2 i3 : String) (role : Role)
    (content : String) : SessionMessage :=
  { role := role, content := content, timestamp := now,
    memories := (extractMemoriesFromContent now i1 i2 i3 content role).map
      fun e => e.id }

/-- Evaluation of `addMessage` when the current-session pointer is falsy:
a session is started implicitly and the message lands in it (the count is
1, so no summary recompute fires). -/
theorem addMessage_falsy (now : ℕ) (freshSid i1 i2 i3 : String) (role : Role)
    (content : String) (st : MemoryManagerState)
    (h : isFalsyId st.currentSessionId = true) :
    addMessage now freshSid i1 i2 i3 role content st =
      ({ memories := (extractMemoriesFromContent now i1 i2 i3 content role).foldl
          (fun acc e => setA e.id e acc) st.memories,
         conversations := setA freshSid
           { sessionId := freshSid,
             messages := [newMessage now i1 i2 i3 role content],
             summary := "", keyTopics := [], startTime := now,
             lastActivity := now }
           (setA freshSid
             { sessionId := freshSid, messages := [], summary := "",
               keyTopics := [], startTime := now, lastActivity := now }
             st.conversations),
         currentSessionId := some freshSid },
       (extractMemoriesFromContent now i1 i2 i3 content role).map
         fun e => e.id) := by
  unfold addMessage startSession newMessage
  rw [if_pos h]
  simp only [lookupA_setA_self]
  rw [if_neg (by simp)]
  rfl

/-- Evaluation of `addMessage` when the current-session pointer is truthy
and the session exists. -/
theorem addMessage_truthy (now : ℕ) (freshSid i1 i2 i3 : String)
    (role : Role) (content : String) (st : MemoryManagerState)
    (sid : String) (conv0 : ConversationMemory)
    (hs : st.currentSessionId = some sid) (hne : sid ≠ "")
    (hl : lookupA sid st.conversations = some conv0) :
    addMessage now freshSid i1 i2 i3 role content st =
      ({ memories := (extractMemoriesFromContent now i1 i2 i3 content role).foldl
          (fun acc e => setA e.id e acc) st.memories,
         conversations := setA sid
           (if (conv0.messages ++ [newMessage now i1 i2 i3 role content]).length % 10 = 0
            then updateConversationSummary
              { conv0 with
                messages := conv0.messages ++ [newMessage now i1 i2 i3 role content],
                lastActivity := now }
            else
              { conv0 with
                messages := conv0.messages ++ [newMessage now i1 i2 i3 role content],
                lastActivity := now })
           st.conversations,
         currentSessionId := some sid },
       (extractMemoriesFromContent now i1 i2 i3 content role).map
         fun e => e.id) := by
  have hfalsy : isFalsyId st.currentSessionId = false := by
    rw [hs]
    simp [isFalsyId, hne]
  unfold addMessage newMessage
  rw [if_neg (by rw [hfalsy]; simp)]
  simp only []
  rw [hs]
  simp only [hl]

/-- C4: `addMessage(role, content)` never raises (it is a total
function): with a falsy current-session pointer it implicitly starts a
session; in either case it appends exactly one message record carrying
the extracted memory ids to the current session, sets its `lastActivity`
to now, and returns the extracted ids (empty when no rule fires). -/
theorem c4_theorem (now : ℕ) (freshSid i1 i2 i3 : String) (role : Role)
    (content : String) (st : MemoryManagerState) :
    (isFalsyId st.currentSessionId = true →
      (addMessage now freshSid i1 i2 i3 role content st).2 =
        (extractMemoriesFromContent now i1 i2 i3 content role).map (fun e => e.id) ∧
      (addMessage now freshSid i1 i2 i3 role content st).1.currentSessionId =
        some freshSid ∧
      ∃ conv, lookupA freshSid
          (addMessage now freshSid i1 i2 i3 role content st).1.conversations =
          some conv ∧
        conv.messages = [newMessage now i1 i2 i3 role content] ∧
        conv.lastActivity = now) ∧
    (∀ sid conv0, st.currentSessionId = some sid → sid ≠ "" →
      lookupA sid st.conversations = some conv0 →
      (addMessage now freshSid i1 i2 i3 role content st).2 =
        (extractMemoriesFromContent now i1 i2 i3 content role).map (fun e => e.id) ∧
      (addMessage now freshSid i1 i2 i3 role content st).1.currentSessionId =
        some sid ∧
      ∃ conv, lookupA sid
          (addMessage now freshSid i1 i2 i3 role content st).1.conversations =
          some conv ∧
        conv.messages = conv0.messages ++ [newMessage now i1 i2 i3 role content] ∧
        conv.lastActivity = now) := by
  constructor
  · intro h
    rw [addMessage_falsy now freshSid i1 i2 i3 role content st h]
    exact ⟨rfl, rfl, _, lookupA_setA_self _ _ _, rfl, rfl⟩
  · intro sid conv0 hs hne hl
    rw [addMessage_truthy now freshSid i1 i2 i3 role content st sid conv0 hs hne hl]
    refine ⟨rfl, rfl, _, lookupA_setA_self _ _ _, ?_, ?_⟩
    · split
      · rw [updateConversationSummary_messages]
      · rfl
    · split
      · rw [updateConversationSummary_lastActivity]
      · rfl

/-- C4 witness: on the empty store (no current session) a message firing
no extraction rule starts a session implicitly and returns no ids. -/
theorem c4_witness :
    (addMessage 7 "s1" "a" "b" "c" Role.user "hello" initialState).2 = [] ∧
    (addMessage 7 "s1" "a" "b" "c" Role.user "hello" initialState).1.currentSessionId =
      some "s1" := by
  have h := (c4_theorem 7 "s1" "a" "b" "c" Role.user "hello" initialState).1 (by decide)
  exact ⟨h.1.trans (by decide), h.2.1⟩

/-- C6: the summary recompute fires exactly when the message count after
the append is a multiple of 10; when it fires, the summary is templated
from the key topics of the last 10 messages while `keyTopics` is
recomputed from the entire history; otherwise both stay unchanged. -/
theorem c6_theorem (now : ℕ) (freshSid i1 i2 i3 : String) (role : Role)
    (content : String) (st : MemoryManagerState) (sid : String)
    (conv0 : ConversationMemory)
    (hs : st.currentSessionId = some sid) (hne : sid ≠ "")
    (hl : lookupA sid st.conversations = some conv0) :
    ∃ conv, lookupA sid
        (addMessage now freshSid i1 i2 i3 role content st).1.conversations =
        some conv ∧
      ((conv0.messages.length + 1) % 10 = 0 →
        conv.summary = "Recent discussion about " ++ joinSep ", "
          (extractKeyTopicsFromMessages
            (lastN 10 (conv0.messages ++ [newMessage now i1 i2 i3 role content]))) ∧
        conv.keyTopics = extractKeyTopicsFromMessages
          (conv0.messages ++ [newMessage now i1 i2 i3 role content])) ∧
      ((conv0.messages.length + 1) % 10 ≠ 0 →
        conv.summary = conv0.summary ∧ conv.keyTopics = conv0.keyTopics) := by
  rw [addMessage_truthy now freshSid i1 i2 i3 role content st sid conv0 hs hne hl]
  refine ⟨_, lookupA_setA_self _ _ _, ?_, ?_⟩
  · intro h10
    have hcond : (conv0.messages ++ [newMessage now i1 i2 i3 role content]).length % 10 = 0 := by
      simpa using h10
    rw [if_pos hcond]
    exact ⟨rfl, rfl⟩
  · intro h10
    have hcond : ¬ (conv0.messages ++ [newMessage now i1 i2 i3 role content]).length % 10 = 0 := by
      simpa using h10
    rw [if_neg hcond]
    exact ⟨rfl, rfl⟩

/-- The session of the C6 witness: an existing session with an old
summary and key topics, holding no messages yet. -/
def witnessConvC6 : ConversationMemory :=
  { sessionId := "s", messages := [], summary := "old summary",
    keyTopics := ["fever"], startTime := 0, lastActivity := 0 }

def witnessStateC6 : MemoryManagerState :=
  { memories := [], conversations := [("s", witnessConvC6)],
    currentSessionId := some "s" }

/-- C6 witness: appending the 1st message (1 % 10 ≠ 0) leaves summary and
key topics unchanged. -/
theorem c6_witness :
    ∃ conv, lookupA "s"
        (addMessage 3 "f" "a" "b" "c" Role.user "hi" witnessStateC6).1.conversations =
        some conv ∧
      conv.summary = "old summary" ∧ conv.keyTopics = ["fever"] := by
  obtain ⟨conv, hl, _hfires, hsame⟩ :=
    c6_theorem 3 "f" "a" "b" "c" Role.user "hi" witnessStateC6 "s" witnessConvC6
      rfl (by decide) rfl
  exact ⟨conv, hl, (hsame (by decide)).1, (hsame (by decide)).2⟩

/-! ### Round-trip of the timestamp codec and the serialized store -/

theorem natDigits_lt_ten : ∀ n d, d ∈ natDigits n → d < 10 := by
  intro n
  induction n using Nat.strong_induction_on with
  | _ n ih =>
    match n with
    | 0 => intro d hd; simp [natDigits] at hd
    | m + 1 =>
      intro d hd
      simp only [natDigits] at hd
      rcases List.mem_append.mp hd with h | h
      · exact ih ((m + 1) / 10) (Nat.div_lt_self (Nat.succ_pos m) (by norm_num)) d h
      · rw [List.mem_singleton] at h
        rw [h]
        exact Nat.mod_lt _ (by norm_num)

theorem natDigits_ne_nil (n : ℕ) (h : n ≠ 0) : natDigits n ≠ [] := by
  match n with
  | 0 => exact absurd rfl h
  | m + 1 => simp [natDigits]

theorem fromDigits_append (l : List ℕ) (d : ℕ) :
    fromDigits (l ++ [d]) = 10 * fromDigits l + d := by
  simp [fromDigits, List.foldl_append]

theorem fromDigits_natDigits : ∀ n, fromDigits (natDigits n) = n := by
  intro n
  induction n using Nat.strong_induction_on with
  | _ n ih =>
    match n with
    | 0 => simp [natDigits, fromDigits]
    | m + 1 =>
      rw [natDigits, fromDigits_append,
        ih ((m + 1) / 10) (Nat.div_lt_self (Nat.succ_pos m) (by norm_num))]
      exact Nat.div_add_mod (m + 1) 10

theorem digitChar_round : ∀ d, d < 10 →
    charToDigit (digitToChar d) = d ∧ isDigitCh (digitToChar d) = true := by
  decide

/-- The rendered timestamp parses back exactly. -/
theorem parse_natToString (n : ℕ) : parseTimestamp (natToString n) = some n := by
  by_cases h0 : n = 0
  · subst h0; decide
  · unfold natToString parseTimestamp
    rw [if_neg h0]
    have hne : ((natDigits n).map digitToChar) ≠ [] := by
      simpa using natDigits_ne_nil n h0
    have hall : (((natDigits n).map digitToChar).all isDigitCh) = true := by
      rw [List.all_eq_true]
      intro c hc
      rw [List.mem_map] at hc
      obtain ⟨d, hd, rfl⟩ := hc
      exact (digitChar_round d (natDigits_lt_ten n d hd)).2
    rw [if_pos ⟨hne, hall⟩]
    rw [List.map_map]
    have hid : ∀ d ∈ natDigits n, (charToDigit ∘ digitToChar) d = d :=
      fun d hd => (digitChar_round d (natDigits_lt_ten n d hd)).1
    rw [List.map_congr_left hid]
    simp only [List.map_id']
    rw [fromDigits_natDigits]

theorem mapOption_round (f : β → Option α) (g : α → β)
    (h : ∀ a, f (g a) = some a) :
    ∀ l : List α, mapOption f (l.map g) = some l := by
  intro l
  induction l with
  | nil => simp [mapOption]
  | cons x xs ih => simp [mapOption, h, ih]

/-- On a serialized entry, `new Date` rehydrates the rendered timestamp
back to the original valid date. -/
theorem rehydrateEntry_round (e : MemoryEntry) :
    rehydrateEntry (serializeEntry e) = loadedOfEntry e := by
  simp [rehydrateEntry, serializeEntry, loadedOfEntry, jsNewDate,
    parse_natToString]

theorem rehydrateMessage_round (m : SessionMessage) :
    rehydrateMessage (serializeMessage m) = loadedOfMessage m := by
  simp [rehydrateMessage, serializeMessage, loadedOfMessage, jsNewDate,
    parse_natToString]

theorem rehydrateConversation_round (c : ConversationMemory) :
    rehydrateConversation (serializeConversation c) = loadedOfConversation c := by
  unfold rehydrateConversation serializeConversation loadedOfConversation
  simp only [List.map_map]
  rw [show (rehydrateMessage ∘ serializeMessage) =
        fun m => rehydrateMessage (serializeMessage m) from rfl,
    List.map_congr_left fun m _ => rehydrateMessage_round m]
  simp [jsNewDate, parse_natToString]

/-- A clean reload of a serialized store assigns exactly the original
field contents, every timestamp a valid date. -/
theorem loadFromStorage_round (st : MemoryManagerState) :
    loadFromStorage (some (Except.ok (parseOk (serializeState st)))) =
      toLoadedState st := by
  simp only [loadFromStorage, parseOk, serializeState, toLoadedState,
    List.map_map]
  congr 1
  · exact List.map_congr_left fun p _ => by
      simp [Function.comp, rehydrateEntry_round]
  · exact List.map_congr_left fun p _ => by
      simp [Function.comp, rehydrateConversation_round]

/-- The typed manager state is recovered exactly from its loaded view. -/
theorem loadedToState_round (st : MemoryManagerState) :
    loadedToState (toLoadedState st) = some st := by
  have hm : ∀ p : String × MemoryEntry,
      ((fun p : String × LoadedEntry =>
          (stateOfLoadedEntry p.2).map fun e => (p.1, e))
        ((fun p : String × MemoryEntry => (p.1, loadedOfEntry p.2)) p)) = some p := by
    rintro ⟨k, e⟩
    simp [stateOfLoadedEntry, loadedOfEntry, natOfTime]
  have hc : ∀ p : String × ConversationMemory,
      ((fun p : String × LoadedConversation =>
          (stateOfLoadedConversation p.2).map fun c => (p.1, c))
        ((fun p : String × ConversationMemory =>
          (p.1, loadedOfConversation p.2)) p)) = some p := by
    rintro ⟨k, c⟩
    simp [stateOfLoadedConversation, loadedOfConversation, natOfTime,
      mapOption_round stateOfLoadedMessage loadedOfMessage
        (fun m => by simp [stateOfLoadedMessage, loadedOfMessage, natOfTime])]
  unfold loadedToState toLoadedState
  rw [mapOption_round
      (fun p : String × LoadedEntry =>
        (stateOfLoadedEntry p.2).map fun e => (p.1, e))
      (fun p : String × MemoryEntry => (p.1, loadedOfEntry p.2)) hm,
    mapOption_round
      (fun p : String × LoadedConversation =>
        (stateOfLoadedConversation p.2).map fun c => (p.1, c))
      (fun p : String × ConversationMemory =>
        (p.1, loadedOfConversation p.2)) hc]
  rfl

/-- The stats read off a loaded view equal the stats of the original
store (the function never touches a timestamp). -/
theorem getMemoryStatsLoaded_toLoaded (st : MemoryManagerState) :
    getMemoryStatsLoaded (toLoadedState st) = getMemoryStats st := by
  unfold getMemoryStatsLoaded getMemoryStats toLoadedState
  simp only [List.length_map, List.foldl_map]
  rfl

/-- C5 (amended): reloading a serialized store assigns exactly the
original contents — `getMemoryStats` is unchanged on the loaded fields,
and the recovered typed store is the original, so `searchMemories` and
`getRelevantMemories` are unchanged for every query and limit, ordering
included; loading never drops an entry whatever its timestamp string
(an unparseable one yields an Invalid-Date entry, not a failure); and
the store starts empty when no prior state exists or when the load
throws before the first field assignment (`JSON.parse`, or constructing
the memories map) — but a throw at the conversations map leaves the
already-assigned memories in place, timestamps still raw strings. -/
theorem c5_theorem (st : MemoryManagerState) (now : ℕ) (query : String)
    (limit : ℕ) :
    loadFromStorage (some (Except.ok (parseOk (serializeState st)))) =
      toLoadedState st ∧
    getMemoryStatsLoaded
      (loadFromStorage (some (Except.ok (parseOk (serializeState st))))) =
      getMemoryStats st ∧
    (∀ st', loadedToState
        (loadFromStorage (some (Except.ok (parseOk (serializeState st))))) =
        some st' →
      getMemoryStats st' = getMemoryStats st ∧
      searchMemories now st' query limit = searchMemories now st query limit ∧
      getRelevantMemories now st' query = getRelevantMemories now st query) ∧
    (∀ ss : SerializedState,
      (loadFromStorage (some (Except.ok (parseOk ss)))).memories.length =
        ss.memories.length) ∧
    loadFromStorage none = emptyLoaded ∧
    (∀ u : Unit, loadFromStorage (some (Except.error u)) = emptyLoaded) ∧
    (∀ d : ParsedData, d.memories = Except.error () →
      loadFromStorage (some (Except.ok d)) = emptyLoaded) ∧
    (∀ (d : ParsedData) mems, d.memories = Except.ok mems →
      d.conversations = Except.error () →
      loadFromStorage (some (Except.ok d)) =
        { memories := mems.map fun p => (p.1, rawLoadedEntry p.2),
          conversations := [], currentSessionId := none }) := by
  refine ⟨loadFromStorage_round st, ?_, ?_, ?_, rfl, fun u => rfl, ?_, ?_⟩
  · rw [loadFromStorage_round st, getMemoryStatsLoaded_toLoaded]
  · intro st' h
    rw [loadFromStorage_round st, loadedToState_round st] at h
    obtain rfl : st = st' := Option.some.inj h
    exact ⟨rfl, rfl, rfl⟩
  · intro ss
    simp [loadFromStorage, parseOk]
  · intro d h
    simp only [loadFromStorage, h]
  · intro d mems h1 h2
    simp only [loadFromStorage, h1, h2]

/-- The serialized entry of the C5 counterexample: its timestamp string
does not parse as a time. -/
def strayEntryC5 : SerEntry :=
  { id := "k", content := "c", category := Category.conversation,
    importance := 0, timestamp := "not-a-time", tags := [], metadata := {} }

/-- A parse result whose conversations value makes `new Map` throw after
the memories map was already assigned. -/
def partialDataC5 : ParsedData :=
  { memories := Except.ok [("k", strayEntryC5)],
    conversations := Except.error (), currentSessionId := none }

/-- A well-shaped parse result whose only oddity is the unparseable
timestamp string. -/
def invalidTimeDataC5 : ParsedData :=
  { memories := Except.ok [("k", strayEntryC5)],
    conversations := Except.ok [], currentSessionId := none }

/-- C5 counterexample: the claim's "if deserialization fails …, the
store starts empty" is false of the code.  When the conversations value
makes `new Map` throw after the memories assignment, the caught
exception leaves a non-empty store (`totalMemories = 1`) whose entry
still carries the raw timestamp string; and an unparseable timestamp is
no failure at all — the blob loads in full, the entry carrying the
Invalid Date. -/
theorem c5_counterexample :
    loadFromStorage (some (Except.ok partialDataC5)) ≠ emptyLoaded ∧
    (getMemoryStatsLoaded
      (loadFromStorage (some (Except.ok partialDataC5)))).totalMemories = 1 ∧
    ((lookupA "k" (loadFromStorage (some (Except.ok partialDataC5))).memories).map
      fun e => e.timestamp) = some (LoadedTime.raw "not-a-time") ∧
    (getMemoryStatsLoaded
      (loadFromStorage (some (Except.ok invalidTimeDataC5)))).totalMemories = 1 ∧
    ((lookupA "k" (loadFromStorage (some (Except.ok invalidTimeDataC5))).memories).map
      fun e => e.timestamp) = some LoadedTime.invalidDate := by
  refine ⟨by decide, by decide, by decide, by decide, by decide⟩

/-- C5 witness: the amended failure clause at a concrete input — a parse
result whose memories value makes `new Map` throw loads the empty
store. -/
theorem c5_witness :
    loadFromStorage (some (Except.ok
      { memories := Except.error (), conversations := Except.error (),
        currentSessionId := none })) = emptyLoaded :=
  (c5_theorem initialState 0 "" 0).2.2.2.2.2.2.1
    { memories := Except.error (), conversations := Except.error (),
      currentSessionId := none } rfl

/-- C10: no storage failure escapes a manager call: with the outcome of
the underlying storage operation threaded explicitly, `addMessage`,
`startSession` and `clearMemories` return `Except.ok` of exactly their
in-memory result for every write outcome, and loading returns `Except.ok`
of a state (the empty one on a failing read) for every read outcome. -/
theorem c10_theorem (now : ℕ) (freshSid i1 i2 i3 sid : String) (role : Role)
    (content : String) (st : MemoryManagerState) :
    (∀ w : Except String Unit,
      addMessageChecked w now freshSid i1 i2 i3 role content st =
        Except.ok (addMessage now freshSid i1 i2 i3 role content st)) ∧
    (∀ w : Except String Unit,
      startSessionChecked w now sid st = Except.ok (startSession now sid st)) ∧
    (∀ w : Except String Unit,
      clearMemoriesChecked w st = Except.ok (clearMemories st)) ∧
    (∀ r : Except String (Option (Except Unit ParsedData)),
      ∃ st0, loadFromStorageChecked r = Except.ok st0) ∧
    (∀ msg : String,
      loadFromStorageChecked (Except.error msg) = Except.ok emptyLoaded) := by
  refine ⟨?_, ?_, ?_, ?_, ?_⟩
  · intro w; cases w <;> rfl
  · intro w; cases w <;> rfl
  · intro w; cases w <;> rfl
  · intro r
    match r with
    | Except.error _ => exact ⟨emptyLoaded, rfl⟩
    | Except.ok stored => exact ⟨loadFromStorage stored, rfl⟩
  · intro msg; rfl

end NelsonMemory
